import Mathlib

/-!
Shallow embedding of `src/data_loader.py` (team-hopper-p3).

The algorithmic core of the repository is the region/mask conversion in
`NeuronLoader`: `region_to_mask` (rasterization, delegated to the external
`regional` library), `mask_to_region` (component labeling delegated to an
external Matlab routine, followed by the in-repository interior-pixel
removal `remove_interiors`) and `get_json_output` (record assembly).

Rasters are modelled as row lists of `Nat` entries.  Python slices are
modelled faithfully, including negative-index wrap-around and clamping.
Python's `for pixel in region` loop with an in-place
`region.remove(pixel)` is modelled by the index-based iterator semantics
of CPython: the iterator keeps an integer cursor, so removing the current
element makes the next element slide into its slot and be skipped.
-/

abbrev Coord := Nat × Nat

abbrev Raster := List (List Nat)

/-- Entry `L[r][c]` of a raster; numpy arrays in the source are rectangular. -/
def rasterAt (L : Raster) (r c : Nat) : Nat := (L.getD r []).getD c 0

/-- Number of columns of a (rectangular) raster. -/
def rasterWidth (L : Raster) : Nat := (L.getD 0 []).length

/-- Python slice-bound normalization for a sequence of length `n`: a negative
bound counts from the end, then the bound is clamped into `[0, n]`. -/
def pyIdx (n : Nat) (i : Int) : Nat :=
  let j : Int := if i < 0 then i + n else i
  if j < 0 then 0 else min j.toNat n

/-- Indices selected by the Python slice `[a:b]` on a sequence of length `n`. -/
def pySlice (n : Nat) (a b : Int) : List Nat :=
  List.range' (pyIdx n a) (pyIdx n b - pyIdx n a)

/-- Values of the numpy sub-array `L[p0-1:p0+2, p1-1:p1+2]` built by
`remove_interiors` around a pixel, with Python slicing semantics (so the
row-0 slice `L[-1:2]` is empty whenever the raster has at least 3 rows,
while bottom and right slices are merely clamped). -/
def gridVals (L : Raster) (p : Coord) : List Nat :=
  (pySlice L.length ((p.1 : Int) - 1) ((p.1 : Int) + 2)).flatMap (fun ri =>
    (pySlice (rasterWidth L) ((p.2 : Int) - 1) ((p.2 : Int) + 2)).map (fun ci =>
      rasterAt L ri ci))

/-- The test `np.unique(grid).size == 1` of `remove_interiors`: true exactly
when the sliced grid is nonempty and all its values agree. -/
def homogGrid (L : Raster) (p : Coord) : Bool :=
  match gridVals L p with
  | [] => false
  | v :: vs => vs.all (fun w => w == v)

/-- The CPython `for pixel in region` loop of `remove_interiors`: the list
iterator holds a cursor `i`; each step reads `region[i]`, possibly executes
`region.remove(pixel)` (which deletes the first occurrence of the value, so
the next element slides into slot `i` and is skipped when the cursor moves
to `i + 1`), and stops once the cursor reaches the current length.  The
fuel argument starts at the initial length, which bounds the number of
iterations since the cursor grows by one per step and the list never grows. -/
def riAux (L : Raster) : Nat → Nat → List Coord → List Coord
  | 0, _, xs => xs
  | fuel + 1, i, xs =>
    if h : i < xs.length then
      if homogGrid L (xs.get ⟨i, h⟩) then riAux L fuel (i + 1) (xs.erase (xs.get ⟨i, h⟩))
      else riAux L fuel (i + 1) xs
    else xs

/-- `remove_interiors(L, region)` from `mask_to_region`. -/
def remove_interiors (L : Raster) (region : List Coord) : List Coord :=
  riAux L region.length 0 region

structure Region where
  coordinates : List Coord
  deriving DecidableEq

/-- Row-major pixel coordinates carrying label `i`, i.e.
`list(zip(*np.where(L == float(i))))`. -/
def coordsWhere (L : Raster) (i : Nat) : List Coord :=
  (List.range L.length).flatMap (fun r =>
    (List.range (rasterWidth L)).filterMap (fun c =>
      if rasterAt L r c = i then some (r, c) else none))

/-- `int(L.max())`: the largest label in the raster. -/
def maxLabel (L : Raster) : Nat :=
  (L.map (fun row => row.foldr max 0)).foldr max 0

/-- The part of `mask_to_region` that runs after the external labeling
collaborator has produced the label raster `L`: `n = int(L.max())`, one
coordinate-list region per `i in range(1, n)` (so labels `1 .. n - 1`),
then `remove_interiors` applied in place to each region's coordinate list. -/
def mask_to_region (L : Raster) : List Region :=
  let n := maxLabel L
  let regions := (List.range' 1 (n - 1)).map (fun i => Region.mk (coordsWhere L i))
  regions.map (fun region => Region.mk (remove_interiors L region.coordinates))

/-- The eight neighbor coordinates of a pixel that have non-negative indices. -/
def neighbors8 (p : Coord) : List Coord :=
  ([(-1, -1), (-1, 0), (-1, 1), (0, -1), (0, 1), (1, -1), (1, 0), (1, 1)] :
      List (Int × Int)).filterMap (fun d =>
    let r : Int := (p.1 : Int) + d.1
    let c : Int := (p.2 : Int) + d.2
    if r < 0 ∨ c < 0 then none else some (r.toNat, c.toNat))

/-- Functional update of one raster entry (no-op out of bounds). -/
def setAt (L : Raster) (r c v : Nat) : Raster :=
  L.set r ((L.getD r []).set c v)

/-- Modelled from the spec: flood fill used by the 8-connected component
labeling contract of the external boundary-tracing collaborator
(`utils/get_region_boundaries.m`, which is not part of the repository
sources).  Marks with `lab` every foreground pixel of `mask` reachable from
the stack through 8-connectivity that is still unlabeled in `L`. -/
def floodFill (mask : Raster) (lab : Nat) : Nat → List Coord → Raster → Raster
  | 0, _, L => L
  | _ + 1, [], L => L
  | fuel + 1, p :: stack, L =>
    if rasterAt mask p.1 p.2 ≠ 0 ∧ rasterAt L p.1 p.2 = 0 then
      floodFill mask lab fuel (neighbors8 p ++ stack) (setAt L p.1 p.2 lab)
    else floodFill mask lab fuel stack L

/-- Modelled from the spec: scan pass of the component labeling — visit
pixels in row-major order and start a flood fill with the next free label
at every foreground pixel not yet labeled. -/
def labelScan (mask : Raster) : List Coord → Nat → Raster → Raster
  | [], _, L => L
  | p :: ps, next, L =>
    if rasterAt mask p.1 p.2 ≠ 0 ∧ rasterAt L p.1 p.2 = 0 then
      labelScan mask ps (next + 1)
        (floodFill mask next (9 * mask.length * rasterWidth mask + 9) [p] L)
    else labelScan mask ps next L

/-- All pixel coordinates of a raster in row-major order. -/
def allCoords (mask : Raster) : List Coord :=
  (List.range mask.length).flatMap (fun r =>
    (List.range (rasterWidth mask)).map (fun c => (r, c)))

/-- An all-zero raster of the same shape as `mask`. -/
def zeroRaster (mask : Raster) : Raster :=
  mask.map (fun row => row.map (fun _ => 0))

/-- Modelled from the spec: the external component-labeling collaborator of
`mask_to_region` (Matlab `bwboundaries` reached through
`utils/get_region_boundaries.m`, absent from the repository sources).  Per
the spec contract it partitions the foreground into maximal 8-connected
components labeled `1 .. n` in deterministic discovery order, background `0`. -/
def labelComponents (mask : Raster) : Raster :=
  labelScan mask (allCoords mask) 1 (zeroRaster mask)

/-- Modelled from the spec: the external rasterization collaborator used by
`region_to_mask` (`regional.many(coords).mask(dims, stroke=white, fill=white,
background=black)` normalized by `skimage.color.rgb2gray`): a pixel of the
`dims.1 × dims.2` raster is foreground (value 1) exactly when it belongs to
some region's coordinate set, background (value 0) otherwise. -/
def regionsMask (regions : List Region) (dims : Nat × Nat) : Raster :=
  (List.range dims.1).map (fun r =>
    (List.range dims.2).map (fun c =>
      if regions.any (fun region => decide ((r, c) ∈ region.coordinates)) then 1 else 0))

/-- `region_to_mask` of `NeuronLoader`: the rasterization collaborator is
invoked with the fixed dimensions `(512, 512)`. -/
def region_to_mask (regions : List Region) : Raster :=
  regionsMask regions (512, 512)

inductive PyError where
  | nameError : String → PyError
  | unboundLocalError : String → PyError
  deriving DecidableEq

structure DatasetRecord where
  dataset : String
  regions : List Region
  deriving DecidableEq

/-- `get_json_output` of `NeuronLoader`.  When the lengths match, Python
evaluates the comprehension over `range(n)` whose element expression reads
the unbound name `dataset` (a typo for `datasets`), so any `n > 0` raises
`NameError` at the first iteration while `n = 0` yields `[]`.  When the
lengths differ, the method prints a compatibility message, leaves `output`
unassigned, and the final `return output` raises `UnboundLocalError`. -/
def get_json_output (datasets : List String) (dataset_regions : List (List Region)) :
    Except PyError (List DatasetRecord) :=
  if datasets.length = dataset_regions.length then
    if datasets.length = 0 then Except.ok []
    else Except.error (PyError.nameError "dataset")
  else Except.error (PyError.unboundLocalError "output")

/-- Heap-passing view for the frame claim: the label raster and the store of
coordinate lists reachable through `regions[i]["coordinates"]` references. -/
structure PyState where
  L : Raster
  regions : List (List Coord)

/-- State-passing version of the `remove_interiors` loop: `ref` is the index
of the caller's coordinate-list object in the store; each `region.remove`
step is a store update at `ref`; every grid test reads the raster component
of the state. -/
def riAuxS (ref : Nat) : Nat → Nat → PyState → PyState × Nat
  | 0, _, s => (s, ref)
  | fuel + 1, i, s =>
    if h : i < (s.regions.getD ref []).length then
      if homogGrid s.L ((s.regions.getD ref []).get ⟨i, h⟩) then
        riAuxS ref fuel (i + 1)
          ⟨s.L, s.regions.set ref
            ((s.regions.getD ref []).erase ((s.regions.getD ref []).get ⟨i, h⟩))⟩
      else riAuxS ref fuel (i + 1) s
    else (s, ref)

/-- State-passing `remove_interiors`: runs the loop on the list stored at
`ref` and returns the (reference to the) very list it was given. -/
def remove_interiorsS (ref : Nat) (s : PyState) : PyState × Nat :=
  riAuxS ref (s.regions.getD ref []).length 0 s

-- Concrete rasters and regions used by the claim instances.

/-- A 3×3 raster entirely covered by label 1. -/
def L33 : Raster := [[1, 1, 1], [1, 1, 1], [1, 1, 1]]

/-- A 5×6 raster with a 3×4 block of label 1 at rows 1–3, columns 1–4. -/
def L3x4 : Raster :=
  [[0, 0, 0, 0, 0, 0],
   [0, 1, 1, 1, 1, 0],
   [0, 1, 1, 1, 1, 0],
   [0, 1, 1, 1, 1, 0],
   [0, 0, 0, 0, 0, 0]]

/-- A 5×5 raster with a 3×3 block of label 1 at rows 1–3, columns 1–3. -/
def L5 : Raster :=
  [[0, 0, 0, 0, 0],
   [0, 1, 1, 1, 0],
   [0, 1, 1, 1, 0],
   [0, 1, 1, 1, 0],
   [0, 0, 0, 0, 0]]

/-- A 3×3 binary mask with exactly one foreground pixel at (1, 1). -/
def maskOneDot : Raster := [[0, 0, 0], [0, 1, 0], [0, 0, 0]]

/-- A 5×5 binary mask with two isolated foreground pixels: two disjoint
8-connected components. -/
def maskTwoDots : Raster :=
  [[0, 0, 0, 0, 0],
   [0, 1, 0, 0, 0],
   [0, 0, 0, 0, 0],
   [0, 0, 0, 1, 0],
   [0, 0, 0, 0, 0]]

/-- A single filled 3×3 square region at rows 2–4, columns 2–4. -/
def squareRegion : Region :=
  Region.mk [(2, 2), (2, 3), (2, 4), (3, 2), (3, 3), (3, 4), (4, 2), (4, 3), (4, 4)]

-- Helper lemmas on lists.

theorem set_getD_self_eq {α : Type} : ∀ (l : List α) (i : Nat) (d : α),
    l.set i (l.getD i d) = l
  | [], _, _ => rfl
  | _ :: _, 0, _ => rfl
  | a :: t, i + 1, d => congrArg (List.cons a) (set_getD_self_eq t i d)

theorem getD_set_self_of_lt {α : Type} : ∀ (l : List α) (i : Nat) (v d : α),
    i < l.length → (l.set i v).getD i d = v
  | [], i, _, _, h => absurd h (Nat.not_lt_zero i)
  | _ :: _, 0, _, _, _ => rfl
  | _ :: t, i + 1, v, d, h => getD_set_self_of_lt t i v d (Nat.lt_of_succ_lt_succ h)

theorem getD_eq_of_length_le {α : Type} : ∀ (l : List α) (i : Nat) (d : α),
    l.length ≤ i → l.getD i d = d
  | [], _, _, _ => rfl
  | _ :: _, 0, _, h => absurd h (Nat.not_succ_le_zero _)
  | _ :: t, i + 1, d, h => getD_eq_of_length_le t i d (Nat.le_of_succ_le_succ h)

theorem getD_range'_map {α : Type} (f : Nat → α) (d : α) : ∀ (n k i : Nat), i < n →
    ((List.range' k n).map f).getD i d = f (k + i)
  | 0, _, i, h => absurd h (Nat.not_lt_zero i)
  | _ + 1, _, 0, _ => rfl
  | n + 1, k, i + 1, h => by
    have ih := getD_range'_map f d n (k + 1) i (Nat.lt_of_succ_lt_succ h)
    have e : ((List.range' k (n + 1)).map f).getD (i + 1) d
        = ((List.range' (k + 1) n).map f).getD i d := rfl
    rw [e, ih, Nat.add_assoc, Nat.add_comm 1 i]

theorem getD_range_map {α : Type} (f : Nat → α) (d : α) (n i : Nat) (h : i < n) :
    ((List.range n).map f).getD i d = f i := by
  rw [List.range_eq_range']
  simpa using getD_range'_map f d n 0 i h

-- Behavior of the loop on lists without homogeneous pixels.

theorem riAux_eq_of_no_homog (L : Raster) : ∀ (fuel i : Nat) (xs : List Coord),
    (∀ p ∈ xs, homogGrid L p = false) → riAux L fuel i xs = xs := by
  intro fuel
  induction fuel with
  | zero => intro i xs _; rfl
  | succ fuel ih =>
    intro i xs hxs
    by_cases h : i < xs.length
    · have hp : homogGrid L (xs.get ⟨i, h⟩) = false := hxs _ (xs.get_mem i h)
      have e : riAux L (fuel + 1) i xs = riAux L fuel (i + 1) xs := by
        simp only [riAux, dif_pos h, hp, Bool.false_eq_true, if_false]
      rw [e]
      exact ih (i + 1) xs hxs
    · simp only [riAux, dif_neg h]

-- Correspondence of the state-passing loop with the pure loop.

theorem riAuxS_spec (ref : Nat) : ∀ (fuel i : Nat) (s : PyState),
    (riAuxS ref fuel i s).1.L = s.L ∧ (riAuxS ref fuel i s).2 = ref ∧
    (riAuxS ref fuel i s).1.regions
      = s.regions.set ref (riAux s.L fuel i (s.regions.getD ref [])) := by
  intro fuel
  induction fuel with
  | zero =>
    intro i s
    exact ⟨rfl, rfl, (set_getD_self_eq s.regions ref []).symm⟩
  | succ fuel ih =>
    intro i s
    by_cases h : i < (s.regions.getD ref []).length
    · have hlen : ref < s.regions.length := by
        by_contra hge
        rw [getD_eq_of_length_le s.regions ref [] (Nat.le_of_not_lt hge)] at h
        exact Nat.not_lt_zero i h
      by_cases hg : homogGrid s.L ((s.regions.getD ref []).get ⟨i, h⟩) = true
      · have e1 : riAuxS ref (fuel + 1) i s
            = riAuxS ref fuel (i + 1)
              ⟨s.L, s.regions.set ref
                ((s.regions.getD ref []).erase ((s.regions.getD ref []).get ⟨i, h⟩))⟩ := by
          simp only [riAuxS, dif_pos h, hg, if_true]
        have e2 : riAux s.L (fuel + 1) i (s.regions.getD ref [])
            = riAux s.L fuel (i + 1)
              ((s.regions.getD ref []).erase ((s.regions.getD ref []).get ⟨i, h⟩)) := by
          simp only [riAux, dif_pos h, hg, if_true]
        obtain ⟨ih1, ih2, ih3⟩ := ih (i + 1)
          ⟨s.L, s.regions.set ref
            ((s.regions.getD ref []).erase ((s.regions.getD ref []).get ⟨i, h⟩))⟩
        refine ⟨by rw [e1]; exact ih1, by rw [e1]; exact ih2, ?_⟩
        rw [e1, e2, ih3]
        rw [getD_set_self_of_lt s.regions ref _ [] hlen, List.set_set]
      · have e1 : riAuxS ref (fuel + 1) i s = riAuxS ref fuel (i + 1) s := by
          simp only [riAuxS, dif_pos h, hg, Bool.false_eq_true, if_false]
        have e2 : riAux s.L (fuel + 1) i (s.regions.getD ref [])
            = riAux s.L fuel (i + 1) (s.regions.getD ref []) := by
          simp only [riAux, dif_pos h, hg, Bool.false_eq_true, if_false]
        obtain ⟨ih1, ih2, ih3⟩ := ih (i + 1) s
        exact ⟨by rw [e1]; exact ih1, by rw [e1]; exact ih2, by rw [e1, e2, ih3]⟩
    · have e1 : riAuxS ref (fuel + 1) i s = (s, ref) := by
        simp only [riAuxS, dif_neg h]
      have e2 : riAux s.L (fuel + 1) i (s.regions.getD ref [])
          = s.regions.getD ref [] := by
        simp only [riAux, dif_neg h]
      exact ⟨by rw [e1], by rw [e1],
        by rw [e1, e2]; exact (set_getD_self_eq s.regions ref []).symm⟩

-- Value of an in-bounds pixel of the modelled rasterizer.

theorem rasterAt_regionsMask (regions : List Region) (H W r c : Nat)
    (hr : r < H) (hc : c < W) :
    rasterAt (regionsMask regions (H, W)) r c
      = if regions.any (fun region => decide ((r, c) ∈ region.coordinates)) then 1 else 0 := by
  unfold rasterAt regionsMask
  rw [getD_range_map _ _ H r hr, getD_range_map _ _ W c hc]

-- Claim theorems.

/-- Claim C1 (evaluated at the failing input): the 5×5 mask with two isolated
foreground pixels has exactly two 8-connected components (the labeling
collaborator assigns maximal label 2), yet `mask_to_region` returns only one
region, because `range(1, n)` enumerates the labels `1 .. n - 1` and drops
label `n`.  The claim requires exactly `k = 2` regions. -/
theorem mask_to_region_drops_last_component :
    maxLabel (labelComponents maskTwoDots) = 2 ∧
    (mask_to_region (labelComponents maskTwoDots)).length = 1 := by decide

/-- Claim C2 (evaluated at the failing input): the 3×3 mask with exactly one
foreground pixel at (1, 1) has exactly one component (maximal label 1), yet
`mask_to_region` returns the empty region list: with `n = 1` the range
`range(1, 1)` is empty, so not even the single component survives. -/
theorem mask_to_region_single_pixel_empty :
    maxLabel (labelComponents maskOneDot) = 1 ∧
    mask_to_region (labelComponents maskOneDot) = [] := by decide

/-- Claim C3 (evaluated at the failing input): in the 5×6 raster with a 3×4
block of label 1, the pixel (2, 3) has a fully homogeneous 3×3 neighborhood,
yet it is retained by `remove_interiors` on the component's row-major
coordinate list: removing (2, 2) during iteration makes the cursor skip
(2, 3), so not every homogeneous-neighborhood pixel is excluded. -/
theorem remove_interiors_keeps_homogeneous_pixel :
    homogGrid L3x4 (2, 3) = true ∧
    (2, 3) ∈ remove_interiors L3x4 (coordsWhere L3x4 1) := by decide

/-- Claim C4 (evaluated at the failing input): in the all-ones 3×3 raster the
foreground pixel (2, 1) lies in the last row, yet `remove_interiors` deletes
it: the slice `L[1:4, 0:3]` is clamped to a 2×3 all-ones grid, so the pixel
is classified interior even though its true 3×3 neighborhood leaves the
raster.  Border-touching pixels are therefore not always retained. -/
theorem remove_interiors_drops_last_row_pixel :
    rasterAt L33 2 1 ≠ 0 ∧ L33.length - 1 = 2 ∧
    (2, 1) ∉ remove_interiors L33 (coordsWhere L33 1) := by decide

/-- Claim C5 (evaluated at the failing input): rasterizing the single filled
3×3 square region on a 7×7 raster and vectorizing the result yields an empty
region list (the single component's label `n = 1` is dropped by
`range(1, n)`), so there is no first output region whose coordinate set
could equal the boundary of the original region. -/
theorem roundtrip_returns_no_region :
    squareRegion.coordinates ≠ [] ∧
    mask_to_region (labelComponents (regionsMask [squareRegion] (7, 7))) = [] := by decide

/-- Claim C6 (evaluated at the failing input): for equal-length nonempty
inputs, `get_json_output` does not return the paired records; the record
expression reads the unbound name `dataset` (a typo for `datasets`), so the
call raises `NameError` on the first comprehension iteration. -/
theorem get_json_output_raises_name_error :
    get_json_output ["a"] [[Region.mk []]] = Except.error (PyError.nameError "dataset") := rfl

/-- Claim C7: for input lists of unequal length, `get_json_output` fails with
an error — the mismatch branch only prints, leaves `output` unassigned and
raises on `return output` — and in particular never returns any list, so no
partial or truncated pairing is produced. -/
theorem get_json_output_length_mismatch (datasets : List String)
    (dataset_regions : List (List Region))
    (h : datasets.length ≠ dataset_regions.length) :
    get_json_output datasets dataset_regions
      = Except.error (PyError.unboundLocalError "output") ∧
    ∀ l : List DatasetRecord, get_json_output datasets dataset_regions ≠ Except.ok l := by
  unfold get_json_output
  rw [if_neg h]
  exact ⟨rfl, fun l hl => Except.noConfusion hl⟩

/-- Witness for claim C7 at the concrete input of the spec's test case:
lengths 2 versus 1. -/
theorem get_json_output_length_mismatch_witness :
    get_json_output ["a", "b"] [[]]
      = Except.error (PyError.unboundLocalError "output") ∧
    ∀ l : List DatasetRecord, get_json_output ["a", "b"] [[]] ≠ Except.ok l :=
  get_json_output_length_mismatch ["a", "b"] [[]] (by decide)

/-- Claim C8: the modelled rasterizer returns an `H × W` single-channel
raster in which an in-bounds pixel has value 1 exactly when it belongs to
some region's coordinate set and value 0 exactly when it belongs to none
(so an empty region list yields an all-background mask), and the source's
`region_to_mask` is this rasterizer at the fixed dimensions (512, 512). -/
theorem regionsMask_foreground_iff (regions : List Region) (H W r c : Nat)
    (hr : r < H) (hc : c < W) :
    (regionsMask regions (H, W)).length = H ∧
    (∀ row ∈ regionsMask regions (H, W), row.length = W) ∧
    (rasterAt (regionsMask regions (H, W)) r c = 1 ↔
      ∃ region ∈ regions, (r, c) ∈ region.coordinates) ∧
    (rasterAt (regionsMask regions (H, W)) r c = 0 ↔
      ¬ ∃ region ∈ regions, (r, c) ∈ region.coordinates) ∧
    region_to_mask regions = regionsMask regions (512, 512) := by
  have hmem : (regions.any (fun region => decide ((r, c) ∈ region.coordinates)) = true)
      ↔ ∃ region ∈ regions, (r, c) ∈ region.coordinates := by
    simp [List.any_eq_true]
  refine ⟨?_, ?_, ?_, ?_, rfl⟩
  · simp [regionsMask]
  · intro row hrow
    simp only [regionsMask, List.mem_map] at hrow
    obtain ⟨a, _, hrow⟩ := hrow
    rw [← hrow]
    simp
  · rw [rasterAt_regionsMask regions H W r c hr hc]
    by_cases hx : regions.any (fun region => decide ((r, c) ∈ region.coordinates)) = true
    · simpa [hx] using hmem.mp hx
    · simp only [hx, if_false]
      simp only [hmem] at hx
      simpa using hx
  · rw [rasterAt_regionsMask regions H W r c hr hc]
    by_cases hx : regions.any (fun region => decide ((r, c) ∈ region.coordinates)) = true
    · simpa [hx] using hmem.mp hx
    · simp only [hx, if_false]
      simp only [hmem] at hx
      simpa using hx

/-- Witness for claim C8: a single region containing the pixel (0, 1) on a
2×3 raster. -/
theorem regionsMask_foreground_iff_witness :
    (regionsMask [Region.mk [(0, 1)]] (2, 3)).length = 2 ∧
    (∀ row ∈ regionsMask [Region.mk [(0, 1)]] (2, 3), row.length = 3) ∧
    (rasterAt (regionsMask [Region.mk [(0, 1)]] (2, 3)) 0 1 = 1 ↔
      ∃ region ∈ [Region.mk [(0, 1)]], ((0 : Nat), (1 : Nat)) ∈ region.coordinates) ∧
    (rasterAt (regionsMask [Region.mk [(0, 1)]] (2, 3)) 0 1 = 0 ↔
      ¬ ∃ region ∈ [Region.mk [(0, 1)]], ((0 : Nat), (1 : Nat)) ∈ region.coordinates) ∧
    region_to_mask [Region.mk [(0, 1)]] = regionsMask [Region.mk [(0, 1)]] (512, 512) :=
  regionsMask_foreground_iff [Region.mk [(0, 1)]] 2 3 0 1 (by decide) (by decide)

/-- Counterexample for claim C9 as stated: on the all-ones 3×3 raster, one
application of `remove_interiors` to the component's coordinate list leaves
homogeneous pixels behind (the cursor skips the element after each removal),
so a second application removes more pixels and the results differ. -/
theorem remove_interiors_not_idempotent_counterexample :
    remove_interiors L33 (remove_interiors L33 (coordsWhere L33 1))
      ≠ remove_interiors L33 (coordsWhere L33 1) := by decide

/-- Claim C9 (amended): `remove_interiors` is a fixed point on genuinely
boundary-only lists — whenever its output contains no pixel with a
homogeneous sliced neighborhood, applying it a second time returns the same
list.  This covers the 1-pixel, 2-pixel line and 3×3-filled-square cases of
the spec, but not every output of a first pass, since a first pass can leave
homogeneous pixels behind. -/
theorem remove_interiors_idempotent_on_boundary_only (L : Raster) (xs : List Coord)
    (h : ∀ p ∈ remove_interiors L xs, homogGrid L p = false) :
    remove_interiors L (remove_interiors L xs) = remove_interiors L xs :=
  riAux_eq_of_no_homog L (remove_interiors L xs).length 0 (remove_interiors L xs) h

/-- Witness for claim C9 (amended): the 3×3 block of label 1 inside a 5×5
raster — the first pass keeps exactly the 8 perimeter pixels, none of which
is homogeneous, and a second pass keeps them all. -/
theorem remove_interiors_idempotent_witness :
    remove_interiors L5 (remove_interiors L5 (coordsWhere L5 1))
      = remove_interiors L5 (coordsWhere L5 1) :=
  remove_interiors_idempotent_on_boundary_only L5 (coordsWhere L5 1) (by decide)

/-- Claim C10: in the state-passing embedding of the `remove_interiors` call
made by `mask_to_region`, the label raster component of the state is
returned unchanged (every neighborhood test reads the original labels), the
returned reference is the very reference the function was given, and the
store is modified only at that reference, which afterwards holds exactly
`remove_interiors` of its previous contents — i.e. the caller's
`regions[i]["coordinates"]` list is mutated in place. -/
theorem remove_interiors_frame (s : PyState) (ref : Nat) :
    (remove_interiorsS ref s).1.L = s.L ∧ (remove_interiorsS ref s).2 = ref ∧
    (remove_interiorsS ref s).1.regions
      = s.regions.set ref (remove_interiors s.L (s.regions.getD ref [])) :=
  riAuxS_spec ref (s.regions.getD ref []).length 0 s
